import Mathlib

/-!
Verification of the correction-and-orchestration engine of a corrective
RAG chatbot (query analysis, conditional routing, bounded correction loop,
HITL interrupt/resume, query decomposition with dependency waves).

The Lean definitions below are a shallow embedding of the Python sources:
  src/core/edges.py, src/core/nodes.py, src/core/state.py,
  src/core/orchestrator.py, src/agents/hitl_controller.py,
  src/agents/agentic_controller.py, src/rag/corrective_engine.py,
  src/rag/relevance_evaluator.py, src/api/routes/chat.py.
Python floats carrying relevance scores and confidences are embedded as
rationals; external collaborators (LLM provider, vector store, web-search
client) are embedded as explicit oracle functions supplied in an
environment record, exactly at the await boundaries of the source.
-/

namespace RagChatbot

/-- Configured value of settings.max_hitl_interactions (src/config/settings.py). -/
def maxHitlInteractionsSetting : Nat := 2

/-- Configured value of settings.relevance_threshold (src/config/settings.py). -/
def relevanceThresholdSetting : ℚ := 1/2

/-- Configured value of settings.max_correction_retries (src/config/settings.py). -/
def maxCorrectionRetriesSetting : Nat := 2

/-- Document model (src/core/models.py `Document`): content plus the
metadata source field and the optional scores used by the engine. -/
structure Document where
  content : String
  source : String
  embeddingScore : Option ℚ := none
  llmRelevanceScore : Option ℚ := none
  combinedScore : Option ℚ := none
deriving Repr, DecidableEq

/-- Relevance level enum (src/core/models.py `RelevanceLevel`). -/
inductive RelevanceLevel where
  | high
  | medium
  | low
deriving Repr, DecidableEq

/-- Result of evaluating one document (src/core/models.py
`RelevanceEvaluationOutput`, reason field omitted as it carries no logic). -/
structure RelevanceEvaluationOutput where
  relevanceScore : ℚ
  relevanceLevel : RelevanceLevel
deriving Repr, DecidableEq

/-- Workflow session state (src/core/state.py `RAGState`).  All keys of the
TypedDict that the engine reads or writes are present; in the Python dict a
missing key is handled by `.get` defaults, while `create_initial_state`
populates every key, so total fields are a faithful embedding. -/
structure RAGState where
  query : String
  sessionId : String
  refinedQuery : String
  complexity : String
  clarityConfidence : ℚ
  isAmbiguous : Bool
  ambiguityType : Option String
  detectedDomains : List String
  clarificationNeeded : Bool
  clarificationQuestion : String
  clarificationOptions : List String
  userResponse : Option String
  interactionCount : Nat
  retrievedDocs : List Document
  relevanceScores : List ℚ
  avgRelevance : ℚ
  highRelevanceCount : Nat
  mediumRelevanceCount : Nat
  retryCount : Nat
  rewrittenQueries : List String
  correctionTriggered : Bool
  subQuestionsState : List (String × String × String)
  parallelGroupsState : List (List String)
  synthesisGuide : String
  webSearchTriggered : Bool
  webResults : List Document
  webConfidence : ℚ
  generatedResponse : String
  responseConfidence : ℚ
  sources : List String
  needsDisclaimer : Bool
  totalLlmCalls : Nat
  errorLog : List String
  currentNode : String
deriving Repr, DecidableEq

/-- src/core/state.py `create_initial_state`. -/
def create_initial_state (query sessionId : String) : RAGState where
  query := query
  sessionId := sessionId
  refinedQuery := ""
  complexity := "simple"
  clarityConfidence := 0
  isAmbiguous := false
  ambiguityType := none
  detectedDomains := []
  clarificationNeeded := false
  clarificationQuestion := ""
  clarificationOptions := []
  userResponse := none
  interactionCount := 0
  retrievedDocs := []
  relevanceScores := []
  avgRelevance := 0
  highRelevanceCount := 0
  mediumRelevanceCount := 0
  retryCount := 0
  rewrittenQueries := []
  correctionTriggered := false
  subQuestionsState := []
  parallelGroupsState := []
  synthesisGuide := ""
  webSearchTriggered := false
  webResults := []
  webConfidence := 0
  generatedResponse := ""
  responseConfidence := 0
  sources := []
  needsDisclaimer := false
  totalLlmCalls := 0
  errorLog := []
  currentNode := "start"

/-! ## Routing policy (src/core/edges.py) -/

/-- src/core/edges.py `route_after_analysis`. -/
def route_after_analysis (s : RAGState) : String :=
  if s.clarificationNeeded ∧ s.interactionCount < maxHitlInteractionsSetting then
    "clarify"
  else if s.complexity = "complex" then
    "decompose"
  else
    "retrieve"

/-- src/core/edges.py `route_after_hitl_response`. -/
def route_after_hitl_response (s : RAGState) : String :=
  if s.complexity = "complex" then "decompose" else "retrieve"

/-- src/core/edges.py `route_after_evaluation`: the active relaxed policy.
The stricter threshold/high-count policy below it in the source is
commented out (disabled) and is therefore not part of the embedding. -/
def route_after_evaluation (s : RAGState) : String :=
  if s.retrievedDocs.length > 0 then
    "generate"
  else
    "web_search"

/-- src/core/edges.py `should_continue` liveness guard. -/
def should_continue (s : RAGState) : Bool :=
  s.errorLog.length = 0 ∨ s.errorLog.length < 3

/-! ## HITL controller (src/agents/hitl_controller.py) -/

/-- src/agents/hitl_controller.py `HITLController.should_clarify`.
The active body is the single line `return False` (HITL disabled); the
threshold logic below it in the source is commented out. -/
def should_clarify (clarityConfidence : ℚ) (isAmbiguous : Bool)
    (interactionCount : Nat) : Bool :=
  false

/-- src/agents/hitl_controller.py `HITLController.refine_query` fallback
branch (LLM failure): literal concatenation of query and response text. -/
def refine_query_fallback (originalQuery responseText : String) : String :=
  originalQuery ++ " (" ++ responseText ++ ")"

/-! ## Theorems for C1 and C2 -/

/-- C1: for every state, `route_after_evaluation` returns "generate"
whenever `retrieved_docs` is non-empty and "web_search" whenever it is
empty; under this relaxed policy it never returns "rewrite". -/
theorem route_after_evaluation_relaxed (s : RAGState) :
    (s.retrievedDocs ≠ [] → route_after_evaluation s = "generate") ∧
    (s.retrievedDocs = [] → route_after_evaluation s = "web_search") ∧
    route_after_evaluation s ≠ "rewrite" := by
  unfold route_after_evaluation
  refine ⟨fun h => ?_, fun h => ?_, ?_⟩
  · rw [if_pos]
    simpa using List.length_pos.mpr h
  · rw [if_neg]
    simp [h]
  · split <;> simp

/-- Witness for C1: concrete non-empty and empty states. -/
theorem route_after_evaluation_relaxed_witness :
    route_after_evaluation
        { create_initial_state "q" "s" with
            retrievedDocs := [{ content := "doc", source := "a.md" }] } =
      "generate" ∧
    route_after_evaluation (create_initial_state "q" "s") = "web_search" := by
  constructor
  · exact (route_after_evaluation_relaxed _).1 (by simp)
  · exact (route_after_evaluation_relaxed _).2.1 rfl

/-! ## Relevance evaluator (src/rag/relevance_evaluator.py) -/

/-- src/rag/relevance_evaluator.py `RelevanceEvaluator._score_to_level`. -/
def score_to_level (score : ℚ) : RelevanceLevel :=
  if 3/5 ≤ score then RelevanceLevel.high
  else if 3/10 ≤ score then RelevanceLevel.medium
  else RelevanceLevel.low

/-- src/rag/relevance_evaluator.py `RelevanceEvaluator.evaluate` for one
document: an embedding score below the embedding threshold (0.3) skips the
LLM and yields a low-level result carrying the embedding score; otherwise
the LLM oracle supplies the relevance score and the level is recomputed
from it via `score_to_level`. -/
def evaluate_document (llm : String → Document → ℚ) (embeddingThreshold : ℚ)
    (query : String) (d : Document) : RelevanceEvaluationOutput :=
  match d.embeddingScore with
  | some es =>
      if es < embeddingThreshold then ⟨es, RelevanceLevel.low⟩
      else ⟨llm query d, score_to_level (llm query d)⟩
  | none => ⟨llm query d, score_to_level (llm query d)⟩

/-- src/rag/relevance_evaluator.py `RelevanceEvaluator.evaluate_batch`
(sequential map over documents, embedding threshold 0.3). -/
def evaluate_batch (llm : String → Document → ℚ) (query : String)
    (docs : List Document) : List RelevanceEvaluationOutput :=
  docs.map (evaluate_document llm (3/10) query)

/-- Aggregate metrics dict returned by `calculate_metrics` (and, with the
medium/low fields zero, the literal dict returned by
`retrieve_and_evaluate` when no documents came back). -/
structure CorrMetrics where
  avgRelevance : ℚ
  highRelevanceCount : Nat
  mediumRelevanceCount : Nat
  lowRelevanceCount : Nat
  sufficient : Bool
deriving Repr, DecidableEq

/-- src/rag/relevance_evaluator.py `RelevanceEvaluator.calculate_metrics`
with the effective threshold passed explicitly (callers in this repository
leave the argument unset, so the evaluator's settings threshold 0.5
applies). -/
def calculate_metrics (threshold : ℚ)
    (evaluations : List RelevanceEvaluationOutput) : CorrMetrics :=
  if evaluations = [] then ⟨0, 0, 0, 0, false⟩
  else
    let scores := evaluations.map (·.relevanceScore)
    let highCount :=
      (evaluations.filter (fun e => decide (e.relevanceLevel = RelevanceLevel.high))).length
    let mediumCount :=
      (evaluations.filter (fun e => decide (e.relevanceLevel = RelevanceLevel.medium))).length
    let lowCount :=
      (evaluations.filter (fun e => decide (e.relevanceLevel = RelevanceLevel.low))).length
    let avg := scores.sum / (scores.length : ℚ)
    let sufficient :=
      decide (1 ≤ highCount) ||
      (decide (1 ≤ mediumCount) && decide (threshold ≤ avg)) ||
      decide (threshold ≤ avg)
    ⟨avg, highCount, mediumCount, lowCount, sufficient⟩

/-! ## Corrective engine (src/rag/corrective_engine.py) -/

/-- Engine parameters (constructor arguments / settings of
`CorrectiveEngine.__init__`). -/
structure CorrectiveConfig where
  maxRetries : Nat
  minHighRelevanceDocs : Nat
  relevanceThreshold : ℚ
deriving Repr, DecidableEq

/-- The loop-decision dict built inside `run_correction_loop`
(keys avg_relevance, high_relevance_count, retry_count). -/
structure LoopState where
  avgRelevance : ℚ
  highRelevanceCount : Nat
  retryCount : Nat
deriving Repr, DecidableEq

/-- src/rag/corrective_engine.py `CorrectionAction`. -/
inductive CorrectionAction where
  | proceed
  | rewrite
  | webSearch
  | fail
deriving Repr, DecidableEq

/-- String value of a `CorrectionAction` (str-enum values in the source). -/
def CorrectionAction.value : CorrectionAction → String
  | .proceed => "proceed"
  | .rewrite => "rewrite"
  | .webSearch => "web_search"
  | .fail => "fail"

/-- src/rag/corrective_engine.py `CorrectiveEngine.should_correct`. -/
def should_correct (cfg : CorrectiveConfig) (s : LoopState) : Bool :=
  if cfg.maxRetries ≤ s.retryCount then false
  else if s.highRelevanceCount < cfg.minHighRelevanceDocs ∧
      s.avgRelevance < cfg.relevanceThreshold then true
  else false

/-- src/rag/corrective_engine.py `CorrectiveEngine.determine_next_action`. -/
def determine_next_action (cfg : CorrectiveConfig) (s : LoopState) :
    CorrectionAction :=
  if cfg.minHighRelevanceDocs ≤ s.highRelevanceCount ∨
      cfg.relevanceThreshold ≤ s.avgRelevance then
    CorrectionAction.proceed
  else if s.retryCount < cfg.maxRetries then
    CorrectionAction.rewrite
  else
    CorrectionAction.webSearch

/-- Oracle environment for the corrective engine: the vector retriever
(`none` embeds a raised exception), the per-document LLM relevance score,
and `QueryRewriter.rewrite_auto` returning (new query, strategy value). -/
structure CorrectiveEnv where
  retrieve : String → Option (List Document)
  llmRelevance : String → Document → ℚ
  rewriteAuto : String → Nat → List String → List String → String × String

/-- src/rag/corrective_engine.py `CorrectiveEngine.retrieve_and_evaluate`:
retrieval errors are swallowed into an empty list; no documents yields the
zero-metrics dict; otherwise documents are evaluated and aggregated. -/
def retrieve_and_evaluate (env : CorrectiveEnv) (query : String) :
    List Document × List RelevanceEvaluationOutput × CorrMetrics :=
  let documents := (env.retrieve query).getD []
  if documents = [] then ([], [], ⟨0, 0, 0, 0, false⟩)
  else
    let evaluations := evaluate_batch env.llmRelevance query documents
    (documents, evaluations, calculate_metrics relevanceThresholdSetting evaluations)

/-- Return dict of `CorrectiveEngine.run_correction_loop`. -/
structure CorrectionResult where
  documents : List Document
  evaluations : List RelevanceEvaluationOutput
  metrics : CorrMetrics
  correctionTriggered : Bool
  retryCount : Nat
  rewrittenQueries : List String
  finalQuery : String
  actionTaken : String
  webSearchNeeded : Bool

/-- The loop-decision dict inspected by `should_correct` and
`determine_next_action` inside `run_correction_loop`. -/
def loopStateOf (m : CorrMetrics) (retry : Nat) : LoopState :=
  ⟨m.avgRelevance, m.highRelevanceCount, retry⟩

/-- A true `should_correct` implies the retry budget is not exhausted. -/
theorem should_correct_retry_lt (cfg : CorrectiveConfig) (s : LoopState)
    (h : should_correct cfg s = true) : s.retryCount < cfg.maxRetries := by
  unfold should_correct at h
  by_contra hle
  rw [if_pos (by omega)] at h
  exact Bool.false_ne_true h

/-- The `while should_correct` loop of
src/rag/corrective_engine.py `CorrectiveEngine.run_correction_loop`, with
`rewrite_and_retry` inlined exactly as the source performs it. -/
def run_correction_loop_aux (cfg : CorrectiveConfig) (env : CorrectiveEnv)
    (currentQuery : String) (retryCount : Nat)
    (rewrittenQueries previousStrategies : List String)
    (correctionTriggered : Bool) (documents : List Document)
    (evaluations : List RelevanceEvaluationOutput) (metrics : CorrMetrics) :
    CorrectionResult :=
  if h : should_correct cfg (loopStateOf metrics retryCount) = true then
    let rewritten := env.rewriteAuto currentQuery retryCount rewrittenQueries previousStrategies
    let step := retrieve_and_evaluate env rewritten.1
    run_correction_loop_aux cfg env rewritten.1 (retryCount + 1)
      (rewrittenQueries ++ [rewritten.1]) (previousStrategies ++ [rewritten.2])
      true step.1 step.2.1 step.2.2
  else
    { documents := documents
      evaluations := evaluations
      metrics := metrics
      correctionTriggered := correctionTriggered
      retryCount := retryCount
      rewrittenQueries := rewrittenQueries
      finalQuery := currentQuery
      actionTaken := (determine_next_action cfg (loopStateOf metrics retryCount)).value
      webSearchNeeded :=
        decide (determine_next_action cfg (loopStateOf metrics retryCount) =
          CorrectionAction.webSearch) }
termination_by cfg.maxRetries - retryCount
decreasing_by
  have := should_correct_retry_lt cfg (loopStateOf metrics retryCount) h
  simp [loopStateOf] at this
  omega

/-- src/rag/corrective_engine.py `CorrectiveEngine.run_correction_loop`:
initial retrieval, then the correction loop. -/
def run_correction_loop (cfg : CorrectiveConfig) (env : CorrectiveEnv)
    (query : String) : CorrectionResult :=
  let start := retrieve_and_evaluate env query
  run_correction_loop_aux cfg env query 0 [query] [] false
    start.1 start.2.1 start.2.2

/-- When the loop guard is false, `determine_next_action` yields proceed
exactly on sufficiency and web_search otherwise (the rewrite branch is
unreachable post-loop). -/
theorem determine_next_action_of_guard_false (cfg : CorrectiveConfig)
    (s : LoopState) (h : should_correct cfg s = false) :
    (determine_next_action cfg s).value =
      (if cfg.minHighRelevanceDocs ≤ s.highRelevanceCount ∨
          cfg.relevanceThreshold ≤ s.avgRelevance then
        "proceed" else "web_search") ∧
    (determine_next_action cfg s).value ≠ "rewrite" := by
  unfold determine_next_action
  by_cases hcond : cfg.minHighRelevanceDocs ≤ s.highRelevanceCount ∨
      cfg.relevanceThreshold ≤ s.avgRelevance
  · rw [if_pos hcond, if_pos hcond]
    exact ⟨rfl, by simp [CorrectionAction.value]⟩
  · rw [if_neg hcond, if_neg hcond]
    have hins : s.highRelevanceCount < cfg.minHighRelevanceDocs ∧
        s.avgRelevance < cfg.relevanceThreshold := by
      push_neg at hcond
      exact ⟨hcond.1, hcond.2⟩
    have hmax : ¬ s.retryCount < cfg.maxRetries := by
      intro hlt
      unfold should_correct at h
      rw [if_neg (by omega), if_pos hins] at h
      simp at h
    rw [if_neg hmax]
    exact ⟨rfl, by simp [CorrectionAction.value]⟩

/-- Post-loop facts the claim needs, packaged over a `CorrectionResult`:
the loop guard is false at exit, the terminal action matches the exit
metrics (proceed on sufficiency, web_search otherwise), it is never
rewrite, and the counters are consistent with the number of iterations. -/
def CorrectionResult.loopExit (cfg : CorrectiveConfig)
    (r : CorrectionResult) : Prop :=
  should_correct cfg (loopStateOf r.metrics r.retryCount) = false ∧
  r.actionTaken =
    (if cfg.minHighRelevanceDocs ≤ r.metrics.highRelevanceCount ∨
        cfg.relevanceThreshold ≤ r.metrics.avgRelevance then
      "proceed" else "web_search") ∧
  r.actionTaken ≠ "rewrite" ∧
  r.retryCount ≤ cfg.maxRetries ∧
  r.rewrittenQueries.length = r.retryCount + 1 ∧
  r.correctionTriggered = decide (0 < r.retryCount)

/-- Loop invariant of `run_correction_loop_aux`. -/
theorem run_correction_loop_aux_post (cfg : CorrectiveConfig)
    (env : CorrectiveEnv) :
    ∀ (n : Nat) (currentQuery : String) (retryCount : Nat)
      (rewrittenQueries previousStrategies : List String)
      (correctionTriggered : Bool) (documents : List Document)
      (evaluations : List RelevanceEvaluationOutput) (metrics : CorrMetrics),
      cfg.maxRetries - retryCount = n →
      retryCount ≤ cfg.maxRetries →
      rewrittenQueries.length = retryCount + 1 →
      correctionTriggered = decide (0 < retryCount) →
      (run_correction_loop_aux cfg env currentQuery retryCount
        rewrittenQueries previousStrategies correctionTriggered documents
        evaluations metrics).loopExit cfg := by
  intro n
  induction n with
  | zero =>
      intro currentQuery retryCount rewrittenQueries previousStrategies
        correctionTriggered documents evaluations metrics hn hle hlen htrig
      have hguard : should_correct cfg (loopStateOf metrics retryCount) = false := by
        rcases Bool.eq_false_or_eq_true
            (should_correct cfg (loopStateOf metrics retryCount)) with h | h
        · exact absurd (should_correct_retry_lt _ _ h) (by simp [loopStateOf]; omega)
        · exact h
      rw [run_correction_loop_aux, dif_neg (by simp [hguard])]
      obtain ⟨hact, hnr⟩ := determine_next_action_of_guard_false cfg _ hguard
      exact ⟨hguard, hact, hnr, hle, hlen, htrig⟩
  | succ n ih =>
      intro currentQuery retryCount rewrittenQueries previousStrategies
        correctionTriggered documents evaluations metrics hn hle hlen htrig
      rw [run_correction_loop_aux]
      by_cases hguard : should_correct cfg (loopStateOf metrics retryCount) = true
      · rw [dif_pos hguard]
        have hlt := should_correct_retry_lt _ _ hguard
        simp only [loopStateOf] at hlt
        exact ih _ (retryCount + 1) _ _ true _ _ _ (by omega) (by omega)
          (by simp [hlen]) (by simp)
      · rw [dif_neg hguard]
        have hguard' : should_correct cfg (loopStateOf metrics retryCount) = false :=
          Bool.eq_false_iff.mpr hguard
        obtain ⟨hact, hnr⟩ := determine_next_action_of_guard_false cfg _ hguard'
        exact ⟨hguard', hact, hnr, hle, hlen, htrig⟩

/-- C3: for every configuration, every oracle for retrieval, relevance and
rewriting, and every query, `run_correction_loop` exits with the
`should_correct` guard false (the loop rewrote exactly while
retryCount < maxRetries and highCount < minHighDocs and
avgRelevance < threshold), the counters consistent, and an `action_taken`
that is "proceed" exactly when highCount ≥ minHighDocs or
avgRelevance ≥ threshold at exit and "web_search" otherwise — never
"rewrite". -/
theorem run_correction_loop_spec (cfg : CorrectiveConfig)
    (env : CorrectiveEnv) (query : String) :
    (run_correction_loop cfg env query).loopExit cfg := by
  unfold run_correction_loop
  exact run_correction_loop_aux_post cfg env _ _ _ _ _ _ _ _ _ rfl
    (Nat.zero_le _) rfl rfl

/-! ## Agentic controller (src/agents/agentic_controller.py) -/

/-- src/agents/agentic_controller.py `SubQuestion`. -/
structure SubQuestion where
  id : String
  question : String
  targetDomain : String := ""
  dependencies : List String := []
deriving Repr, DecidableEq

/-- src/agents/agentic_controller.py `DecompositionResult`. -/
structure DecompositionResult where
  originalIntent : String
  subQuestions : List SubQuestion
  parallelGroups : List (List String) := []
  synthesisGuide : String := ""
deriving Repr, DecidableEq

/-- src/agents/agentic_controller.py `SubAnswer`. -/
structure SubAnswer where
  questionId : String
  question : String
  answer : String
  sources : List String := []
  confidence : ℚ := 0
deriving Repr, DecidableEq

/-- Helper for the strict-decrease termination argument: filtering out a
present element shortens the list. -/
theorem length_filter_lt_of_mem_not {α : Type} (p : α → Bool) (l : List α)
    (x : α) (hx : x ∈ l) (hpx : ¬ p x = true) :
    (l.filter p).length < l.length := by
  have h1 : (l.filter p).length ≤ l.length := l.length_filter_le p
  rcases Nat.lt_or_ge (l.filter p).length l.length with h | h
  · exact h
  · exfalso
    have heq : (l.filter p).length = l.length := le_antisymm h1 h
    have := (List.filter_length_eq_length (p := p) (l := l)).mp heq
    exact hpx (this x hx)

/-- The `ready` list computed by one iteration of the wave loop in
src/agents/agentic_controller.py `_create_default_parallel_groups`: ids of
the remaining questions whose dependencies are all processed. -/
def readyIds (processed : List String) (remaining : List SubQuestion) :
    List String :=
  (remaining.filter
    (fun q => q.dependencies.all (fun d => processed.contains d))).map
    (fun q => q.id)

/-- The recomputation of `remaining` after one wave-loop iteration:
questions whose id is not yet processed (processed now including the
ready ids). -/
def afterReady (processed : List String) (remaining : List SubQuestion) :
    List SubQuestion :=
  remaining.filter
    (fun q => !(processed ++ readyIds processed remaining).contains q.id)

/-- The `while remaining:` loop of
src/agents/agentic_controller.py `_create_default_parallel_groups`:
place every question whose dependencies are all processed into the next
wave; if none is placeable, place all remaining questions into one final
wave and stop. -/
def create_groups_loop (processed : List String)
    (remaining : List SubQuestion) : List (List String) :=
  if remaining = [] then []
  else if hr : readyIds processed remaining = [] then
    [remaining.map (fun q => q.id)]
  else
    readyIds processed remaining ::
      create_groups_loop (processed ++ readyIds processed remaining)
        (afterReady processed remaining)
termination_by remaining.length
decreasing_by
  rcases List.exists_mem_of_ne_nil _ hr with ⟨i, hi⟩
  rcases List.mem_map.mp hi with ⟨q, hq, hqi⟩
  have hqmem : q ∈ remaining := List.mem_of_mem_filter hq
  unfold afterReady
  refine length_filter_lt_of_mem_not _ _ q hqmem ?_
  have hdeps : ∀ x ∈ q.dependencies, x ∈ processed := by
    have := List.of_mem_filter hq
    simpa using this
  simp [readyIds]
  exact fun _ => ⟨q, hqmem, hdeps, rfl⟩

/-- src/agents/agentic_controller.py
`AgenticController._create_default_parallel_groups`: dependency-free
questions form wave 1, then the level-by-level loop. -/
def create_default_parallel_groups (subQuestions : List SubQuestion) :
    List (List String) :=
  let noDeps :=
    (subQuestions.filter (fun q => q.dependencies.isEmpty)).map (fun q => q.id)
  let headGroups := if noDeps.isEmpty then [] else [noDeps]
  let processed := if noDeps.isEmpty then [] else noDeps
  let remaining := subQuestions.filter (fun q => !processed.contains q.id)
  headGroups ++ create_groups_loop processed remaining

/-- Distinct ids make the id projection injective on the list. -/
theorem nodup_map_id_inj {l : List SubQuestion}
    (hnd : (l.map (fun q => q.id)).Nodup) {q1 q2 : SubQuestion}
    (h1 : q1 ∈ l) (h2 : q2 ∈ l) (h : q1.id = q2.id) : q1 = q2 :=
  List.inj_on_of_nodup_map hnd h1 h2 h

/-- With distinct ids, membership of a remaining question's id in the
ready wave is exactly its dependency check. -/
theorem mem_readyIds_iff {processed : List String}
    {remaining : List SubQuestion}
    (hnd : (remaining.map (fun q => q.id)).Nodup) {q : SubQuestion}
    (hq : q ∈ remaining) :
    q.id ∈ readyIds processed remaining ↔
      q.dependencies.all (fun d => processed.contains d) = true := by
  unfold readyIds
  constructor
  · intro hx
    rcases List.mem_map.mp hx with ⟨q2, hq2, hid⟩
    have hq2r : q2 ∈ remaining := List.mem_of_mem_filter hq2
    have heq : q2 = q := nodup_map_id_inj hnd hq2r hq hid
    rw [heq] at hq2
    exact (List.mem_filter.mp hq2).2
  · intro hP
    exact List.mem_map.mpr ⟨q, List.mem_filter.mpr ⟨hq, hP⟩, rfl⟩

/-- With distinct ids and remaining disjoint from processed, the
recomputed remaining list is the dependency-filter complement. -/
theorem afterReady_eq {processed : List String}
    {remaining : List SubQuestion}
    (hnd : (remaining.map (fun q => q.id)).Nodup)
    (hdisj : ∀ q ∈ remaining, q.id ∉ processed) :
    afterReady processed remaining =
      remaining.filter
        (fun q => !(q.dependencies.all (fun d => processed.contains d))) := by
  unfold afterReady
  apply List.filter_congr
  intro q hq
  have hcont : (processed ++ readyIds processed remaining).contains q.id =
      q.dependencies.all (fun d => processed.contains d) := by
    by_cases hP : q.dependencies.all (fun d => processed.contains d) = true
    · rw [hP]
      exact List.elem_eq_true_of_mem
        (List.mem_append_right _ ((mem_readyIds_iff hnd hq).mpr hP))
    · rw [Bool.eq_false_iff.mpr hP, Bool.eq_false_iff]
      intro hmem
      rcases List.mem_append.mp (List.mem_of_elem_eq_true hmem) with h | h
      · exact hdisj q hq h
      · exact hP ((mem_readyIds_iff hnd hq).mp h)
  rw [hcont]

/-- The wave loop emits each remaining id exactly once: its concatenation
is a permutation of the remaining ids. -/
theorem create_groups_loop_join_perm :
    ∀ (n : Nat) (processed : List String) (remaining : List SubQuestion),
      remaining.length ≤ n →
      (remaining.map (fun q => q.id)).Nodup →
      (∀ q ∈ remaining, q.id ∉ processed) →
      (create_groups_loop processed remaining).flatten.Perm
        (remaining.map (fun q => q.id)) := by
  intro n
  induction n with
  | zero =>
      intro processed remaining hlen hnd hdisj
      have : remaining = [] := List.eq_nil_of_length_eq_zero (Nat.le_zero.mp hlen)
      subst this
      rw [create_groups_loop]
      simp
  | succ n ih =>
      intro processed remaining hlen hnd hdisj
      rw [create_groups_loop]
      by_cases hnil : remaining = []
      · subst hnil; simp
      rw [if_neg hnil]
      by_cases hr : readyIds processed remaining = []
      · rw [dif_pos hr]
        simp
      rw [dif_neg hr]
      -- one placed element strictly shrinks remaining
      rcases List.exists_mem_of_ne_nil _ hr with ⟨i, hi⟩
      rcases List.mem_map.mp hi with ⟨q0, hq0, hq0i⟩
      have hq0mem : q0 ∈ remaining := List.mem_of_mem_filter hq0
      have hshrink : (afterReady processed remaining).length < remaining.length := by
        unfold afterReady
        refine length_filter_lt_of_mem_not _ _ q0 hq0mem ?_
        have hdeps : ∀ x ∈ q0.dependencies, x ∈ processed := by
          have := List.of_mem_filter hq0
          simpa [readyIds] using this
        simp [readyIds]
        exact fun _ => ⟨q0, hq0mem, hdeps, rfl⟩
      have hsub : List.Sublist (afterReady processed remaining) remaining := by
        unfold afterReady; exact List.filter_sublist _
      have hnd2 : ((afterReady processed remaining).map (fun q => q.id)).Nodup :=
        (hsub.map _).nodup hnd
      have hdisj2 : ∀ q ∈ afterReady processed remaining,
          q.id ∉ processed ++ readyIds processed remaining := by
        intro q hq hmem
        have hkeep := (List.mem_filter.mp hq).2
        have hfalse : (processed ++ readyIds processed remaining).contains q.id = false := by
          simpa using hkeep
        have hfalse2 : List.elem q.id (processed ++ readyIds processed remaining) = false :=
          hfalse
        exact absurd (List.elem_eq_true_of_mem hmem)
          (by rw [hfalse2]; exact Bool.false_ne_true)
      have hrec := ih (processed ++ readyIds processed remaining)
        (afterReady processed remaining) (by omega) hnd2 hdisj2
      -- ready ++ ids of afterReady is a permutation of the remaining ids
      rw [List.flatten_cons]
      refine (hrec.append_left _).trans ?_
      rw [afterReady_eq hnd hdisj]
      unfold readyIds
      rw [← List.map_append]
      exact (List.filter_append_perm _ remaining).map (fun q => q.id)
/-- Wave-loop invariant for dependencies: a remaining question placed in
wave i either has all its dependencies in processed-or-earlier waves, or
wave i is the final (cycle catch-all) wave. -/
theorem create_groups_loop_deps :
    ∀ (n : Nat) (processed : List String) (remaining : List SubQuestion),
      remaining.length ≤ n →
      (remaining.map (fun q => q.id)).Nodup →
      (∀ q ∈ remaining, q.id ∉ processed) →
      ∀ q ∈ remaining, ∀ (i : Nat) (g : List String),
        (create_groups_loop processed remaining)[i]? = some g →
        q.id ∈ g →
        (∀ d ∈ q.dependencies,
          d ∈ processed ++ ((create_groups_loop processed remaining).take i).flatten) ∨
        i = (create_groups_loop processed remaining).length - 1 := by
  intro n
  induction n with
  | zero =>
      intro processed remaining hlen hnd hdisj q hq i g hg hqg
      have : remaining = [] := List.eq_nil_of_length_eq_zero (Nat.le_zero.mp hlen)
      subst this
      simp at hq
  | succ n ih =>
      intro processed remaining hlen hnd hdisj q hq i g hg hqg
      by_cases hnil : remaining = []
      · subst hnil; simp at hq
      by_cases hr : readyIds processed remaining = []
      · -- cycle catch-all: the loop returns a single final wave
        right
        rw [create_groups_loop, if_neg hnil, dif_pos hr] at hg ⊢
        match i, hg with
        | 0, _ => simp
      · rw [create_groups_loop, if_neg hnil, dif_neg hr] at hg ⊢
        match i, hg with
        | 0, hg =>
            -- q.id is in the ready wave: its dependencies are all processed
            left
            rw [List.getElem?_cons_zero] at hg
            have hgg := Option.some_inj.mp hg
            subst hgg
            intro d hd
            have hall := (mem_readyIds_iff hnd hq).mp hqg
            have := List.all_eq_true.mp hall d hd
            simp only [List.take_zero, List.flatten_nil, List.append_nil]
            exact List.mem_of_elem_eq_true this
        | (j+1), hg =>
            rw [List.getElem?_cons_succ] at hg
            -- q survives into the recursive call
            have hsub : List.Sublist (afterReady processed remaining) remaining := by
              unfold afterReady; exact List.filter_sublist _
            have hnd2 : ((afterReady processed remaining).map (fun q => q.id)).Nodup :=
              (hsub.map _).nodup hnd
            have hdisj2 : ∀ p ∈ afterReady processed remaining,
                p.id ∉ processed ++ readyIds processed remaining := by
              intro p hp hmem
              have hkeep := (List.mem_filter.mp hp).2
              have hfalse : List.elem p.id (processed ++ readyIds processed remaining) = false := by
                simpa using hkeep
              exact absurd (List.elem_eq_true_of_mem hmem)
                (by rw [hfalse]; exact Bool.false_ne_true)
            rcases List.exists_mem_of_ne_nil _ hr with ⟨x0, hx0⟩
            rcases List.mem_map.mp hx0 with ⟨q0, hq0, hq0x⟩
            have hq0mem : q0 ∈ remaining := List.mem_of_mem_filter hq0
            have hshrink : (afterReady processed remaining).length < remaining.length := by
              unfold afterReady
              refine length_filter_lt_of_mem_not _ _ q0 hq0mem ?_
              have hdeps0 : ∀ x ∈ q0.dependencies, x ∈ processed := by
                have := (List.mem_filter.mp hq0).2
                simpa using this
              simp [readyIds]
              exact fun _ => ⟨q0, hq0mem, hdeps0, rfl⟩
            -- q.id occurs in the recursive groups, hence in afterReady
            have hgmem : g ∈ create_groups_loop
                (processed ++ readyIds processed remaining)
                (afterReady processed remaining) := by
              exact List.getElem?_mem hg
            have hidflat : q.id ∈ (create_groups_loop
                (processed ++ readyIds processed remaining)
                (afterReady processed remaining)).flatten :=
              List.mem_flatten.mpr ⟨g, hgmem, hqg⟩
            have hperm := create_groups_loop_join_perm n
              (processed ++ readyIds processed remaining)
              (afterReady processed remaining) (by omega) hnd2 hdisj2
            have hidafter : q.id ∈ (afterReady processed remaining).map (fun q => q.id) :=
              hperm.mem_iff.mp hidflat
            rcases List.mem_map.mp hidafter with ⟨q2, hq2, hq2id⟩
            have : q2 = q := nodup_map_id_inj hnd (hsub.subset hq2) hq hq2id
            subst this
            have hih := ih (processed ++ readyIds processed remaining)
              (afterReady processed remaining) (by omega) hnd2 hdisj2 q2 hq2
              j g hg hqg
            rcases hih with hleft | hright
            · left
              intro d hd
              have := hleft d hd
              simp only [List.take_succ_cons, List.flatten_cons]
              simp only [List.mem_append] at this ⊢
              tauto
            · right
              have hjlt : j < (create_groups_loop
                  (processed ++ readyIds processed remaining)
                  (afterReady processed remaining)).length := by
                exact (List.getElem?_eq_some_iff.mp hg).1
              simp only [List.length_cons]
              omega

/-- With distinct ids, an id lands in the filtered id list exactly when
its (unique) question satisfies the filter. -/
theorem mem_filter_ids_iff (P : SubQuestion → Bool) {l : List SubQuestion}
    (hnd : (l.map (fun q => q.id)).Nodup) {q : SubQuestion} (hq : q ∈ l) :
    q.id ∈ (l.filter P).map (fun q => q.id) ↔ P q = true := by
  constructor
  · intro hx
    rcases List.mem_map.mp hx with ⟨q2, hq2, hid⟩
    have heq : q2 = q := nodup_map_id_inj hnd (List.mem_of_mem_filter hq2) hq hid
    rw [heq] at hq2
    exact (List.mem_filter.mp hq2).2
  · intro hP
    exact List.mem_map.mpr ⟨q, List.mem_filter.mpr ⟨hq, hP⟩, rfl⟩

/-- A question of the enclosing list whose id occurs among the ids of a
sublist is a member of that sublist (ids distinct). -/
theorem mem_of_id_mem_map {l bigl : List SubQuestion} (hsub : l.Sublist bigl)
    (hndb : (bigl.map (fun q => q.id)).Nodup) {q : SubQuestion}
    (hq : q ∈ bigl) (hid : q.id ∈ l.map (fun q => q.id)) : q ∈ l := by
  rcases List.mem_map.mp hid with ⟨q2, hq2, hq2id⟩
  have heq : q2 = q := nodup_map_id_inj hndb (hsub.subset hq2) hq hq2id
  rw [heq] at hq2
  exact hq2

/-- Every id appears in exactly one wave: the concatenation of
`create_default_parallel_groups` is a permutation of the question ids. -/
theorem create_default_parallel_groups_perm (qs : List SubQuestion)
    (hnd : (qs.map (fun q => q.id)).Nodup) :
    (create_default_parallel_groups qs).flatten.Perm
      (qs.map (fun q => q.id)) := by
  unfold create_default_parallel_groups
  by_cases h0 : ((qs.filter (fun q => q.dependencies.isEmpty)).map
      (fun q => q.id)).isEmpty
  · simp only [h0, if_pos]
    have hrem : qs.filter
        (fun q => !(([] : List String).contains q.id)) = qs :=
      List.filter_eq_self.mpr (fun q _ => by simp)
    rw [hrem]
    simpa using create_groups_loop_join_perm qs.length [] qs le_rfl hnd
      (by simp)
  · simp only [h0, if_neg, Bool.false_eq_true, not_false_eq_true,
      List.nil_append]
    have hsub : List.Sublist
        (qs.filter (fun q =>
          !((qs.filter (fun q => q.dependencies.isEmpty)).map
            (fun q => q.id)).contains q.id)) qs := List.filter_sublist _
    have hnd2 : ((qs.filter (fun q =>
        !((qs.filter (fun q => q.dependencies.isEmpty)).map
          (fun q => q.id)).contains q.id)).map (fun q => q.id)).Nodup :=
      (hsub.map _).nodup hnd
    have hdisj2 : ∀ q ∈ qs.filter (fun q =>
        !((qs.filter (fun q => q.dependencies.isEmpty)).map
          (fun q => q.id)).contains q.id),
        q.id ∉ (qs.filter (fun q => q.dependencies.isEmpty)).map
          (fun q => q.id) := by
      intro q hq hmem
      have hkeep := (List.mem_filter.mp hq).2
      have hfalse : List.elem q.id
          ((qs.filter (fun q => q.dependencies.isEmpty)).map
            (fun q => q.id)) = false := by simpa using hkeep
      exact absurd (List.elem_eq_true_of_mem hmem)
        (by rw [hfalse]; exact Bool.false_ne_true)
    have hloop := create_groups_loop_join_perm _ _ _ le_rfl hnd2 hdisj2
    rw [List.singleton_append, List.flatten_cons]
    refine (hloop.append_left _).trans ?_
    -- membership in the no-dependency wave is the emptiness check
    have hrem : qs.filter (fun q =>
        !((qs.filter (fun q => q.dependencies.isEmpty)).map
          (fun q => q.id)).contains q.id) =
        qs.filter (fun q => !q.dependencies.isEmpty) := by
      apply List.filter_congr
      intro q hq
      have := mem_filter_ids_iff (fun q => q.dependencies.isEmpty) hnd hq
      by_cases hP : q.dependencies.isEmpty = true
      · have hm := this.mpr hP
        rw [hP]
        simp [List.elem_eq_true_of_mem hm]
        exact ⟨q, ⟨hq, List.isEmpty_iff.mp hP⟩, rfl⟩
      · have hm : q.id ∉ (qs.filter (fun q => q.dependencies.isEmpty)).map
            (fun q => q.id) := fun hc => hP (this.mp hc)
        rw [Bool.eq_false_iff.mpr hP]
        simp only [Bool.not_false]
        simp [hm]
    rw [hrem, ← List.map_append]
    exact (List.filter_append_perm _ qs).map (fun q => q.id)

/-- Dependency waves: a question placed in wave i has all its
dependencies in strictly earlier waves, unless i is the final wave (the
cycle catch-all). -/
theorem create_default_parallel_groups_deps (qs : List SubQuestion)
    (hnd : (qs.map (fun q => q.id)).Nodup) :
    ∀ q ∈ qs, ∀ (i : Nat) (g : List String),
      (create_default_parallel_groups qs)[i]? = some g → q.id ∈ g →
      (∀ d ∈ q.dependencies,
        d ∈ ((create_default_parallel_groups qs).take i).flatten) ∨
      i = (create_default_parallel_groups qs).length - 1 := by
  intro q hq i g hg hqg
  unfold create_default_parallel_groups at hg ⊢
  by_cases h0 : ((qs.filter (fun q => q.dependencies.isEmpty)).map
      (fun q => q.id)).isEmpty
  · simp only [h0, if_pos] at hg ⊢
    have hrem : qs.filter
        (fun q => !(([] : List String).contains q.id)) = qs :=
      List.filter_eq_self.mpr (fun q _ => by simp)
    rw [hrem] at hg ⊢
    have := create_groups_loop_deps qs.length [] qs le_rfl hnd (by simp)
      q hq i g (by simpa using hg) hqg
    simpa using this
  · simp only [h0, if_neg, Bool.false_eq_true, not_false_eq_true,
      List.nil_append] at hg ⊢
    have hsub : List.Sublist
        (qs.filter (fun q =>
          !((qs.filter (fun q => q.dependencies.isEmpty)).map
            (fun q => q.id)).contains q.id)) qs := List.filter_sublist _
    have hnd2 : ((qs.filter (fun q =>
        !((qs.filter (fun q => q.dependencies.isEmpty)).map
          (fun q => q.id)).contains q.id)).map (fun q => q.id)).Nodup :=
      (hsub.map _).nodup hnd
    have hdisj2 : ∀ p ∈ qs.filter (fun q =>
        !((qs.filter (fun q => q.dependencies.isEmpty)).map
          (fun q => q.id)).contains q.id),
        p.id ∉ (qs.filter (fun q => q.dependencies.isEmpty)).map
          (fun q => q.id) := by
      intro p hp hmem
      have hkeep := (List.mem_filter.mp hp).2
      have hfalse : List.elem p.id
          ((qs.filter (fun q => q.dependencies.isEmpty)).map
            (fun q => q.id)) = false := by simpa using hkeep
      exact absurd (List.elem_eq_true_of_mem hmem)
        (by rw [hfalse]; exact Bool.false_ne_true)
    rw [List.singleton_append] at hg ⊢
    match i, hg with
    | 0, hg =>
        left
        rw [List.getElem?_cons_zero] at hg
        have hgg := Option.some_inj.mp hg
        subst hgg
        have hempty : q.dependencies.isEmpty = true :=
          (mem_filter_ids_iff (fun q => q.dependencies.isEmpty) hnd hq).mp hqg
        intro d hd
        rw [List.isEmpty_iff.mp hempty] at hd
        simp at hd
    | (j+1), hg =>
        rw [List.getElem?_cons_succ] at hg
        have hgmem := List.getElem?_mem hg
        have hidflat : q.id ∈ (create_groups_loop
            ((qs.filter (fun q => q.dependencies.isEmpty)).map (fun q => q.id))
            (qs.filter (fun q =>
              !((qs.filter (fun q => q.dependencies.isEmpty)).map
                (fun q => q.id)).contains q.id))).flatten :=
          List.mem_flatten.mpr ⟨g, hgmem, hqg⟩
        have hperm := create_groups_loop_join_perm _ _ _ le_rfl hnd2 hdisj2
        have hqrem : q ∈ qs.filter (fun q =>
            !((qs.filter (fun q => q.dependencies.isEmpty)).map
              (fun q => q.id)).contains q.id) :=
          mem_of_id_mem_map hsub hnd hq (hperm.mem_iff.mp hidflat)
        have hih := create_groups_loop_deps _ _ _ le_rfl hnd2 hdisj2
          q hqrem j g hg hqg
        rcases hih with hleft | hright
        · left
          intro d hd
          have := hleft d hd
          simp only [List.take_succ_cons, List.flatten_cons]
          simp only [List.mem_append] at this ⊢
          tauto
        · right
          have hjlt : j < (create_groups_loop
              ((qs.filter (fun q => q.dependencies.isEmpty)).map (fun q => q.id))
              (qs.filter (fun q =>
                !((qs.filter (fun q => q.dependencies.isEmpty)).map
                  (fun q => q.id)).contains q.id))).length :=
            (List.getElem?_eq_some_iff.mp hg).1
          simp only [List.length_cons]
          omega

/-- C4: for distinct-id sub-questions with arbitrary dependency lists
(cycles included), the default wave construction terminates (it is a total
function), every id appears in exactly one wave (the waves concatenate to
a permutation of the ids), and a question's dependencies all lie in
strictly earlier waves except possibly for the final wave, which absorbs
all remaining questions when none is placeable. -/
theorem create_default_parallel_groups_waves (qs : List SubQuestion)
    (hnd : (qs.map (fun q => q.id)).Nodup) :
    (create_default_parallel_groups qs).flatten.Perm
      (qs.map (fun q => q.id)) ∧
    ∀ q ∈ qs, ∀ (i : Nat) (g : List String),
      (create_default_parallel_groups qs)[i]? = some g → q.id ∈ g →
      (∀ d ∈ q.dependencies,
        d ∈ ((create_default_parallel_groups qs).take i).flatten) ∨
      i = (create_default_parallel_groups qs).length - 1 :=
  ⟨create_default_parallel_groups_perm qs hnd,
   create_default_parallel_groups_deps qs hnd⟩

/-- A concrete batch with a 2-cycle (q1 ↔ q2) and one free question. -/
def exampleCycleQs : List SubQuestion :=
  [{ id := "q1", question := "a", targetDomain := "", dependencies := ["q2"] },
   { id := "q2", question := "b", targetDomain := "", dependencies := ["q1"] },
   { id := "q3", question := "c", targetDomain := "", dependencies := [] }]

/-- Witness for C4: the cyclic batch has distinct ids and the wave
theorem applies to it. -/
theorem create_default_parallel_groups_waves_witness :
    (exampleCycleQs.map (fun q => q.id)).Nodup ∧
    ((create_default_parallel_groups exampleCycleQs).flatten.Perm
      (exampleCycleQs.map (fun q => q.id)) ∧
    ∀ q ∈ exampleCycleQs, ∀ (i : Nat) (g : List String),
      (create_default_parallel_groups exampleCycleQs)[i]? = some g →
      q.id ∈ g →
      (∀ d ∈ q.dependencies,
        d ∈ ((create_default_parallel_groups exampleCycleQs).take i).flatten) ∨
      i = (create_default_parallel_groups exampleCycleQs).length - 1) :=
  ⟨by decide, create_default_parallel_groups_waves exampleCycleQs (by decide)⟩

/-- src/agents/agentic_controller.py
`AgenticController._create_simple_decomposition` fallback. -/
def create_simple_decomposition (query : String) : DecompositionResult where
  originalIntent := query
  subQuestions := [{ id := "q1", question := query, targetDomain := "",
                     dependencies := [] }]
  parallelGroups := [["q1"]]
  synthesisGuide := "단일 질문 - 직접 답변 사용"

/-- Retrieval-and-answer callback passed to `execute_parallel_retrieval`
(`retrieval_func` in the source): returns (answer, sources, confidence) or
embeds a raised exception as an error message. -/
abbrev RetrievalFn := String → String → Except String (String × List String × ℚ)

/-- The dict comprehension `{q.id: q for q in sub_questions}` of
`execute_parallel_retrieval`: lookup by id, last occurrence winning. -/
def question_map (qs : List SubQuestion) (qid : String) : Option SubQuestion :=
  qs.reverse.find? (fun q => q.id == qid)

/-- src/agents/agentic_controller.py
`AgenticController._execute_single_retrieval`: every exception raised by
the callback is caught inside this coroutine and converted into a
SubAnswer with answer "오류 발생: <message>", no sources and confidence 0,
so the task itself never raises. -/
def execute_single_retrieval (f : RetrievalFn) (q : SubQuestion) : SubAnswer :=
  match f q.question q.targetDomain with
  | Except.ok r =>
      { questionId := q.id, question := q.question, answer := r.1,
        sources := r.2.1, confidence := r.2.2 }
  | Except.error e =>
      { questionId := q.id, question := q.question,
        answer := "오류 발생: " ++ e, sources := [], confidence := 0 }

/-- The `executable` comprehension of one wave: group entries that resolve
in the question map and whose dependencies are all completed (resolved to
their questions; the map lookup guarantees matching ids). -/
def executableOf (qmap : String → Option SubQuestion) (completed : List String)
    (group : List String) : List SubQuestion :=
  group.filterMap (fun qid =>
    match qmap qid with
    | some q =>
        if q.dependencies.all (fun dep => completed.contains dep) then some q
        else none
    | none => none)

/-- The wave loop of src/agents/agentic_controller.py
`AgenticController.execute_parallel_retrieval`: per wave, compute the
executable questions, skip the wave if none, otherwise collect one
SubAnswer per executable question (`asyncio.gather` with per-task error
capture) and mark them completed. -/
def execute_parallel_groups (f : RetrievalFn)
    (qmap : String → Option SubQuestion) :
    List (List String) → List String → List SubAnswer
  | [], _ => []
  | group :: rest, completed =>
      let executable := executableOf qmap completed group
      if executable.isEmpty then execute_parallel_groups f qmap rest completed
      else
        executable.map (execute_single_retrieval f) ++
          execute_parallel_groups f qmap rest
            (completed ++ executable.map (fun q => q.id))

/-- src/agents/agentic_controller.py
`AgenticController.execute_parallel_retrieval`. -/
def execute_parallel_retrieval (d : DecompositionResult) (f : RetrievalFn) :
    List SubAnswer :=
  execute_parallel_groups f (question_map d.subQuestions) d.parallelGroups []

/-- The questions actually executed by the wave loop — a pure skeleton of
`execute_parallel_groups` that does not depend on the retrieval callback. -/
def executed_questions (qmap : String → Option SubQuestion) :
    List (List String) → List String → List SubQuestion
  | [], _ => []
  | group :: rest, completed =>
      let executable := executableOf qmap completed group
      if executable.isEmpty then executed_questions qmap rest completed
      else
        executable ++ executed_questions qmap rest
          (completed ++ executable.map (fun q => q.id))

/-- The wave loop returns exactly one SubAnswer per executed question and
which questions execute does not depend on the callback at all. -/
theorem execute_parallel_groups_eq_map (f : RetrievalFn)
    (qmap : String → Option SubQuestion) :
    ∀ (groups : List (List String)) (completed : List String),
      execute_parallel_groups f qmap groups completed =
        (executed_questions qmap groups completed).map
          (execute_single_retrieval f) := by
  intro groups
  induction groups with
  | nil => intro completed; rfl
  | cons group rest ih =>
      intro completed
      rw [execute_parallel_groups, executed_questions]
      by_cases hemp : (executableOf qmap completed group).isEmpty
      · simp only [hemp, if_pos]
        exact ih completed
      · simp only [hemp, Bool.false_eq_true, if_neg, not_false_eq_true]
        rw [List.map_append]
        rw [ih]

/-- Modelled from the claim wording of C10: the group ids covered by a
run are, wave by wave, those that exist in `sub_questions` and whose
dependencies were all completed by earlier-executed entries of the same
run, accumulated in order. -/
def covered_ids_go (qs : List SubQuestion) :
    List (List String) → List String → List String
  | [], _ => []
  | group :: rest, completed =>
      let c := group.filter (fun qid =>
        match question_map qs qid with
        | some q => q.dependencies.all (fun dep => completed.contains dep)
        | none => false)
      c ++ covered_ids_go qs rest (completed ++ c)

/-- Modelled from the claim wording of C10 (whole run). -/
def coveredIds (d : DecompositionResult) : List String :=
  covered_ids_go d.subQuestions d.parallelGroups []

/-- A successful `question_map` lookup returns a question bearing the
looked-up id. -/
theorem question_map_id {qs : List SubQuestion} {qid : String}
    {q : SubQuestion} (h : question_map qs qid = some q) : q.id = qid := by
  have := List.find?_some h
  simpa using this

/-- Ids of the executable questions of a wave are exactly the covered ids
of that wave. -/
theorem executableOf_map_id (qs : List SubQuestion) (completed : List String) :
    ∀ group : List String,
      (executableOf (question_map qs) completed group).map (fun q => q.id) =
        group.filter (fun qid =>
          match question_map qs qid with
          | some q => q.dependencies.all (fun dep => completed.contains dep)
          | none => false) := by
  intro group
  induction group with
  | nil => rfl
  | cons qid rest ih =>
      rw [executableOf, List.filterMap_cons, List.filter_cons]
      cases hq : question_map qs qid with
      | none =>
          simp only [hq]
          rw [if_neg (by simp)]
          exact ih
      | some q =>
          simp only [hq]
          by_cases hdep : (q.dependencies.all fun dep => completed.contains dep) = true
          · rw [if_pos hdep, if_pos hdep]
            rw [List.map_cons, question_map_id hq, ← ih]
            rfl
          · rw [if_neg hdep, if_neg hdep]
            rw [← ih]
            rfl

/-- The executed-question ids coincide with the covered ids, wave by wave. -/
theorem executed_questions_map_id (qs : List SubQuestion) :
    ∀ (groups : List (List String)) (completed : List String),
      (executed_questions (question_map qs) groups completed).map
          (fun q => q.id) =
        covered_ids_go qs groups completed := by
  intro groups
  induction groups with
  | nil => intro completed; rfl
  | cons group rest ih =>
      intro completed
      rw [executed_questions, covered_ids_go]
      have hc := executableOf_map_id qs completed group
      by_cases hemp : (executableOf (question_map qs) completed group).isEmpty
      · have hnil : (executableOf (question_map qs) completed group) = [] :=
          List.isEmpty_iff.mp hemp
        simp only [hemp, if_pos]
        rw [ih, ← hc, hnil]
        simp
      · simp only [hemp, Bool.false_eq_true, if_neg, not_false_eq_true]
        rw [List.map_append, ih, ← hc]

/-- A concrete configuration and oracle for the correction loop. -/
def exampleCorrectiveCfg : CorrectiveConfig :=
  { maxRetries := maxCorrectionRetriesSetting, minHighRelevanceDocs := 2,
    relevanceThreshold := relevanceThresholdSetting }

/-- A concrete oracle: retrieval always raises, rewriting echoes. -/
def exampleCorrectiveEnv : CorrectiveEnv :=
  { retrieve := fun _ => none
    llmRelevance := fun _ _ => 0
    rewriteAuto := fun q _ _ _ => (q, "generalization") }

/-- Witness for C3: the loop exit facts at a concrete configuration,
oracle and query. -/
theorem run_correction_loop_spec_witness :
    (run_correction_loop exampleCorrectiveCfg exampleCorrectiveEnv
      "질문").loopExit exampleCorrectiveCfg :=
  run_correction_loop_spec exampleCorrectiveCfg exampleCorrectiveEnv "질문"

/-- One dependency-free question in one wave. -/
def exampleFailDecomp : DecompositionResult where
  originalIntent := "x"
  subQuestions := [{ id := "q1", question := "a", targetDomain := "",
                     dependencies := [] }]
  parallelGroups := [["q1"]]
  synthesisGuide := ""

/-- C5 counterexample: with a raising callback, the failing task's
SubAnswer text is "오류 발생: <message>", not the claimed
"정보를 찾을 수 없습니다." — that placeholder sits in the
`isinstance(result, Exception)` branch of `execute_parallel_retrieval`,
which is unreachable for raised exceptions because
`_execute_single_retrieval` already catches them all. -/
theorem execute_parallel_retrieval_error_text_counterexample :
    execute_parallel_retrieval exampleFailDecomp
        (fun _ _ => Except.error "boom") =
      [{ questionId := "q1", question := "a", answer := "오류 발생: boom",
         sources := [], confidence := 0 }] ∧
    "오류 발생: boom" ≠ "정보를 찾을 수 없습니다." := by
  exact ⟨rfl, by decide⟩

/-- C5 (amended): a failing sub-question task never prevents sibling
tasks — the run yields exactly one SubAnswer per executed question and
the executed questions do not depend on the callback at all — and a task
whose callback raises yields a SubAnswer with answer
"오류 발생: <exception message>", empty sources and confidence 0.0. -/
theorem execute_parallel_retrieval_error_isolation
    (d : DecompositionResult) (f : RetrievalFn) :
    execute_parallel_retrieval d f =
      (executed_questions (question_map d.subQuestions)
        d.parallelGroups []).map (execute_single_retrieval f) ∧
    ∀ (q : SubQuestion) (msg : String),
      f q.question q.targetDomain = Except.error msg →
      execute_single_retrieval f q =
        { questionId := q.id, question := q.question,
          answer := "오류 발생: " ++ msg, sources := [], confidence := 0 } := by
  refine ⟨execute_parallel_groups_eq_map f _ _ _, ?_⟩
  intro q msg hmsg
  unfold execute_single_retrieval
  rw [hmsg]

/-- Witness for C5: the amended theorem applied to the concrete failing
batch. -/
theorem execute_parallel_retrieval_error_isolation_witness :
    execute_single_retrieval (fun _ _ => Except.error "boom")
        { id := "q1", question := "a", targetDomain := "",
          dependencies := [] } =
      { questionId := "q1", question := "a",
        answer := "오류 발생: " ++ "boom", sources := [], confidence := 0 } :=
  (execute_parallel_retrieval_error_isolation exampleFailDecomp
    (fun _ _ => Except.error "boom")).2
    { id := "q1", question := "a", targetDomain := "", dependencies := [] }
    "boom" rfl

/-- A batch whose only listed group contains an id with an unsatisfiable
dependency and an id that does not exist: both are silently skipped. -/
def exampleSkippedDecomp : DecompositionResult where
  originalIntent := "x"
  subQuestions := [{ id := "q1", question := "a", targetDomain := "",
                     dependencies := ["q9"] }]
  parallelGroups := [["q1", "qx"]]
  synthesisGuide := ""

/-- C10: the returned SubAnswers cover exactly the parallel-group ids that
exist in `sub_questions` and whose dependencies were all completed by
earlier-executed entries of the same run (`coveredIds`, written from the
claim); all other ids are skipped without error, and the covered set can
be strictly smaller than `sub_questions`, as on `exampleSkippedDecomp`. -/
theorem execute_parallel_retrieval_covers_exactly :
    (∀ (d : DecompositionResult) (f : RetrievalFn),
      (execute_parallel_retrieval d f).map (fun a => a.questionId) =
        coveredIds d) ∧
    (coveredIds exampleSkippedDecomp).length <
      exampleSkippedDecomp.subQuestions.length := by
  constructor
  · intro d f
    rw [execute_parallel_retrieval, execute_parallel_groups_eq_map,
      List.map_map]
    have hcomp : ((fun a : SubAnswer => a.questionId) ∘
        execute_single_retrieval f) = fun q : SubQuestion => q.id := by
      funext q
      show (execute_single_retrieval f q).questionId = q.id
      unfold execute_single_retrieval
      split <;> rfl
    rw [hcomp, coveredIds]
    exact executed_questions_map_id d.subQuestions d.parallelGroups []
  · decide

/-! ## Workflow nodes and orchestrator
(src/core/nodes.py, src/core/orchestrator.py, src/api/routes/chat.py) -/

/-- src/core/models.py `ClarificationOutput`. -/
structure ClarificationOutput where
  clarificationQuestion : String
  options : List String
deriving Repr, DecidableEq

/-- Output of `QueryProcessor.analyze` (src/core/models.py
`QueryAnalysisOutput`), supplied by the LLM oracle. -/
structure AnalysisOutput where
  refinedQuery : String
  complexity : String
  clarityConfidence : ℚ
  isAmbiguous : Bool
  ambiguityType : Option String
  detectedDomains : List String
deriving Repr, DecidableEq

/-- Output of `ResponseGenerator.generate`, supplied by the LLM oracle. -/
structure GenerationOutput where
  response : String
  sources : List String
deriving Repr, DecidableEq

/-- Oracle environment for the workflow nodes: one field per external
collaborator call (`await` boundary) in src/core/nodes.py.  `none` on
`retrieve`/`webSearch` embeds a raised exception; the clarification,
decomposition and refine oracles already include the in-controller
fallbacks, which return normally. -/
structure Env where
  analyze : String → AnalysisOutput
  retrieve : String → Option (List Document)
  llmRelevance : String → Document → ℚ
  rewriteAuto : String → Nat → List String → List String → String × String
  generate : String → List Document → List Document → GenerationOutput
  qualityConfidence : String → String → List String → ℚ
  clarify : String → Option String → ℚ → List String → ClarificationOutput
  refineHitlQuery : String → String → String → String
  webSearch : String → List String → Option (List Document)
  decomposeLLM : String → Option DecompositionResult

/-- The `state.get("refined_query") or state["query"]` idiom of
src/core/nodes.py (empty string is falsy). -/
def effective_query (s : RAGState) : String :=
  if s.refinedQuery = "" then s.query else s.refinedQuery

/-- src/core/nodes.py `analyze_query_node`. -/
def analyze_query_node (env : Env) (s : RAGState) : RAGState :=
  let a := env.analyze s.query
  { s with
      refinedQuery := if a.refinedQuery = "" then s.query else a.refinedQuery
      complexity := a.complexity
      clarityConfidence := a.clarityConfidence
      isAmbiguous := a.isAmbiguous
      ambiguityType := a.ambiguityType
      detectedDomains := a.detectedDomains
      clarificationNeeded :=
        should_clarify a.clarityConfidence a.isAmbiguous s.interactionCount
      currentNode := "analyze_query"
      totalLlmCalls := s.totalLlmCalls + 1 }

/-- src/core/nodes.py `retrieve_documents_node` (domain filter disabled in
the source; a retrieval exception yields an empty document list). -/
def retrieve_documents_node (env : Env) (s : RAGState) : RAGState :=
  let documents := (env.retrieve (effective_query s)).getD []
  { s with retrievedDocs := documents, currentNode := "retrieve_documents" }

/-- src/core/nodes.py `evaluate_relevance_node`. -/
def evaluate_relevance_node (env : Env) (s : RAGState) : RAGState :=
  if s.retrievedDocs = [] then
    { s with
        relevanceScores := []
        avgRelevance := 0
        highRelevanceCount := 0
        mediumRelevanceCount := 0
        currentNode := "evaluate_relevance" }
  else
    let evaluations := evaluate_batch env.llmRelevance (effective_query s) s.retrievedDocs
    let m := calculate_metrics relevanceThresholdSetting evaluations
    { s with
        relevanceScores := evaluations.map (fun e => e.relevanceScore)
        avgRelevance := m.avgRelevance
        highRelevanceCount := m.highRelevanceCount
        mediumRelevanceCount := m.mediumRelevanceCount
        currentNode := "evaluate_relevance"
        totalLlmCalls := s.totalLlmCalls + s.retrievedDocs.length }

/-- src/core/nodes.py `rewrite_query_node`. -/
def rewrite_query_node (env : Env) (s : RAGState) : RAGState :=
  let r := env.rewriteAuto (effective_query s) s.retryCount s.rewrittenQueries []
  { s with
      refinedQuery := r.1
      rewrittenQueries := s.rewrittenQueries ++ [r.1]
      retryCount := s.retryCount + 1
      correctionTriggered := true
      currentNode := "rewrite_query"
      totalLlmCalls := s.totalLlmCalls + 1 }

/-- src/core/nodes.py `generate_response_node` (the web-results argument
is the state's list; the source passes None for an empty list, which the
oracle sees as the empty list). -/
def generate_response_node (env : Env) (s : RAGState) : RAGState :=
  let r := env.generate s.query s.retrievedDocs s.webResults
  { s with
      generatedResponse := r.response
      sources := r.sources
      currentNode := "generate_response"
      totalLlmCalls := s.totalLlmCalls + 1 }

/-- src/core/nodes.py `evaluate_quality_node`: the disclaimer is exactly
`web_search_triggered` ("only show disclaimer if web search was actually
used"). -/
def evaluate_quality_node (env : Env) (s : RAGState) : RAGState :=
  let confidence := env.qualityConfidence s.query s.generatedResponse s.sources
  { s with
      responseConfidence := confidence
      needsDisclaimer := s.webSearchTriggered
      currentNode := "evaluate_quality"
      totalLlmCalls := s.totalLlmCalls + 1 }

/-- src/core/nodes.py `web_search_node`: on success the confidence is the
mean of the results' combined scores (0 when absent); on a raised
exception the node still sets `web_search_triggered` and the disclaimer
and logs the error. -/
def web_search_node (env : Env) (s : RAGState) : RAGState :=
  match env.webSearch (effective_query s) s.detectedDomains with
  | some results =>
      let webConfidence : ℚ :=
        if results = [] then 0
        else (results.map (fun r => r.combinedScore.getD 0)).sum / results.length
      { s with
          webSearchTriggered := true
          webResults := results
          webConfidence := webConfidence
          needsDisclaimer := true
          currentNode := "web_search" }
  | none =>
      { s with
          webSearchTriggered := true
          webResults := []
          webConfidence := 0
          needsDisclaimer := true
          errorLog := s.errorLog ++ ["Web search error"]
          currentNode := "web_search" }

/-- src/core/nodes.py `clarify_hitl_node`. -/
def clarify_hitl_node (env : Env) (s : RAGState) : RAGState :=
  let c := env.clarify s.query s.ambiguityType s.clarityConfidence s.detectedDomains
  { s with
      clarificationQuestion := c.clarificationQuestion
      clarificationOptions := c.options
      interactionCount := s.interactionCount + 1
      currentNode := "clarify_hitl"
      totalLlmCalls := s.totalLlmCalls + 1 }

/-- src/core/nodes.py `process_hitl_response_node`. -/
def process_hitl_response_node (env : Env) (s : RAGState) : RAGState :=
  let refined := env.refineHitlQuery s.query s.clarificationQuestion
    (s.userResponse.getD "")
  { s with
      refinedQuery := refined
      clarificationNeeded := false
      isAmbiguous := false
      currentNode := "process_hitl_response"
      totalLlmCalls := s.totalLlmCalls + 1 }

/-- src/agents/agentic_controller.py `AgenticController.decompose_query`:
LLM failure or fewer than 2 sub-questions falls back to the single-question
decomposition; missing parallel groups are derived deterministically. -/
def decompose_query (llm : String → Option DecompositionResult)
    (query : String) : DecompositionResult :=
  match llm query with
  | none => create_simple_decomposition query
  | some r =>
      if r.subQuestions.length < 2 then create_simple_decomposition query
      else if r.parallelGroups = [] then
        { r with parallelGroups := create_default_parallel_groups r.subQuestions }
      else r

/-- src/core/nodes.py `decompose_query_node`. -/
def decompose_query_node (env : Env) (s : RAGState) : RAGState :=
  if s.complexity ≠ "complex" then { s with currentNode := "decompose_query" }
  else
    let d := decompose_query env.decomposeLLM (effective_query s)
    { s with
        subQuestionsState :=
          d.subQuestions.map (fun sq => (sq.id, sq.question, sq.targetDomain))
        parallelGroupsState := d.parallelGroups
        synthesisGuide := d.synthesisGuide
        currentNode := "decompose_query"
        totalLlmCalls := s.totalLlmCalls + 1 }

/-- Nodes of the LangGraph workflow (src/core/orchestrator.py
`_build_graph` / `_build_continuation_graph`). -/
inductive NodeName where
  | analyzeQuery
  | clarifyHitl
  | processHitlResponse
  | decomposeQuery
  | retrieveDocs
  | evaluateRelevance
  | rewriteQuery
  | webSearchNode
  | generateResponse
  | evaluateQuality
deriving Repr, DecidableEq

/-- Execute one named node (the graph's node table). -/
def run_node (env : Env) : NodeName → RAGState → RAGState
  | .analyzeQuery, s => analyze_query_node env s
  | .clarifyHitl, s => clarify_hitl_node env s
  | .processHitlResponse, s => process_hitl_response_node env s
  | .decomposeQuery, s => decompose_query_node env s
  | .retrieveDocs, s => retrieve_documents_node env s
  | .evaluateRelevance, s => evaluate_relevance_node env s
  | .rewriteQuery, s => rewrite_query_node env s
  | .webSearchNode, s => web_search_node env s
  | .generateResponse, s => generate_response_node env s
  | .evaluateQuality, s => evaluate_quality_node env s

/-- The edge table of the workflow graph, exactly the conditional edges of
src/core/orchestrator.py wired to the routing functions of
src/core/edges.py; `none` is END.  `clarify_hitl` has no outgoing edge
(interrupt point).  The continuation graph of
`_build_continuation_graph` is the sub-graph entered at
`process_hitl_response`; it contains neither `analyze_query` nor
`clarify_hitl`, and its edges for the shared nodes are identical. -/
def next_node : NodeName → RAGState → Option NodeName
  | .analyzeQuery, s =>
      if route_after_analysis s = "clarify" then some .clarifyHitl
      else if route_after_analysis s = "decompose" then some .decomposeQuery
      else some .retrieveDocs
  | .clarifyHitl, _ => none
  | .processHitlResponse, s =>
      if route_after_hitl_response s = "decompose" then some .decomposeQuery
      else some .retrieveDocs
  | .decomposeQuery, _ => some .retrieveDocs
  | .retrieveDocs, _ => some .evaluateRelevance
  | .evaluateRelevance, s =>
      if route_after_evaluation s = "generate" then some .generateResponse
      else if route_after_evaluation s = "rewrite" then some .rewriteQuery
      else some .webSearchNode
  | .rewriteQuery, _ => some .retrieveDocs
  | .webSearchNode, _ => some .generateResponse
  | .generateResponse, _ => some .evaluateQuality
  | .evaluateQuality, _ => none

/-- Run the graph from a node, merging each node's delta into the running
state (src/core/orchestrator.py `_run_graph`).  The fuel argument only
bounds the number of node executions; under the active relaxed routing
the longest path (analyze → decompose → retrieve → evaluate → web_search
→ generate → quality) executes 7 nodes, so the fixed fuel 10 used below
never runs out — the theorems prove the runs reach their terminal node. -/
def run_from (env : Env) : Nat → NodeName → RAGState → RAGState
  | 0, _, s => s
  | fuel + 1, node, s =>
      let s2 := run_node env node s
      match next_node node s2 with
      | none => s2
      | some n2 => run_from env fuel n2 s2

/-- The main graph run (entry `analyze_query`). -/
def run_main_graph (env : Env) (s : RAGState) : RAGState :=
  run_from env 10 NodeName.analyzeQuery s

/-- The HITL continuation graph run (entry `process_hitl_response`,
src/core/orchestrator.py `_build_continuation_graph`). -/
def run_continuation_graph (env : Env) (s : RAGState) : RAGState :=
  run_from env 10 NodeName.processHitlResponse s

/-- src/core/models.py `RetrievalSource`. -/
inductive RetrievalSource where
  | vector
  | web
  | hybrid
deriving Repr, DecidableEq

/-- src/core/models.py `RAGResponse` (wall-clock processing time and the
debug payload are omitted: they carry no control logic). -/
structure RAGResponse where
  response : String
  sources : List String
  confidence : ℚ
  needsDisclaimer : Bool
  retrievalSource : RetrievalSource
  sessionId : String
deriving Repr, DecidableEq

/-- The pending-session registry (`RAGOrchestrator._pending_sessions`),
an association list with dict semantics: insert replaces, pop removes. -/
structure Orchestrator where
  pendingSessions : List (String × RAGState)
deriving Repr, DecidableEq

/-- Dict deletion (`pop`). -/
def registryErase (r : List (String × RAGState)) (sid : String) :
    List (String × RAGState) :=
  r.filter (fun p => !(p.1 == sid))

/-- Dict assignment (`self._pending_sessions[session_id] = state`). -/
def registryInsert (r : List (String × RAGState)) (sid : String)
    (s : RAGState) : List (String × RAGState) :=
  (sid, s) :: registryErase r sid

/-- src/core/orchestrator.py `RAGOrchestrator._build_response`. -/
def build_response (s : RAGState) (sessionId : String) : RAGResponse :=
  let retrievalSource :=
    if s.webSearchTriggered then
      if s.retrievedDocs ≠ [] then RetrievalSource.hybrid
      else RetrievalSource.web
    else RetrievalSource.vector
  { response := s.generatedResponse
    sources := s.sources
    confidence := s.responseConfidence
    needsDisclaimer := s.needsDisclaimer
    retrievalSource := retrievalSource
    sessionId := sessionId }

/-- The fresh-query path of src/core/orchestrator.py
`RAGOrchestrator.process_query`: run the main graph; a run that ended at
`clarify_hitl` is stored in the registry and answered with a
clarification payload, otherwise the final response is built. -/
def process_fresh (env : Env) (orc : Orchestrator)
    (query sessionId : String) :
    (RAGResponse ⊕ ClarificationOutput) × Orchestrator :=
  let fs := run_main_graph env (create_initial_state query sessionId)
  if fs.currentNode = "clarify_hitl" then
    (Sum.inr ⟨fs.clarificationQuestion, fs.clarificationOptions⟩,
     ⟨registryInsert orc.pendingSessions sessionId fs⟩)
  else
    (Sum.inl (build_response fs sessionId), orc)

/-- src/core/orchestrator.py
`RAGOrchestrator._continue_with_hitl_response`: pop the stored state,
inject the user response, run the continuation graph, re-register on a
new interrupt, otherwise build the final response. -/
def continue_with_hitl_response (env : Env) (orc : Orchestrator)
    (sessionId : String) (stored : RAGState) (userResponse : String) :
    (RAGResponse ⊕ ClarificationOutput) × Orchestrator :=
  let afterPop := registryErase orc.pendingSessions sessionId
  let fs := run_continuation_graph env
    { stored with userResponse := some userResponse }
  if fs.currentNode = "clarify_hitl" then
    (Sum.inr ⟨fs.clarificationQuestion, fs.clarificationOptions⟩,
     ⟨registryInsert afterPop sessionId fs⟩)
  else
    (Sum.inl (build_response fs sessionId), ⟨afterPop⟩)

/-- src/core/orchestrator.py `RAGOrchestrator.process_query`: the HITL
continuation is taken only when a user response is present (non-empty —
Python truthiness) and the session id has a pending entry; otherwise the
call is processed as a fresh query. -/
def process_query (env : Env) (orc : Orchestrator) (query sessionId : String)
    (userResponse : Option String) :
    (RAGResponse ⊕ ClarificationOutput) × Orchestrator :=
  match userResponse, orc.pendingSessions.lookup sessionId with
  | some u, some stored =>
      if u = "" then process_fresh env orc query sessionId
      else continue_with_hitl_response env orc sessionId stored u
  | some _, none => process_fresh env orc query sessionId
  | none, _ => process_fresh env orc query sessionId

/-- src/api/routes/chat.py `chat_clarify`: a resume request whose session
has no pending entry is rejected with HTTP 400 before the orchestrator is
ever invoked; otherwise the stored original query is resumed through
`process_query`. -/
def chat_clarify (env : Env) (orc : Orchestrator)
    (sessionId userResponse : String) :
    Except String ((RAGResponse ⊕ ClarificationOutput) × Orchestrator) :=
  match orc.pendingSessions.lookup sessionId with
  | none => Except.error "세션이 만료되었습니다. 새로운 질문을 입력해 주세요."
  | some stored =>
      Except.ok (process_query env orc stored.query sessionId (some userResponse))

/-- C2 (code bug evidence): at clarity confidence 0.5, ambiguous, zero
interactions, the claimed trigger condition holds but `should_clarify`
returns false — the source body is an unconditional `return False`,
contradicting the repository's own unit test
tests/unit/test_hitl_controller.py::test_should_clarify_when_ambiguous,
which asserts this very call returns True. -/
theorem should_clarify_disabled_divergence :
    should_clarify (1/2) true 0 = false ∧
    (0 < maxHitlInteractionsSetting ∧ (true = true ∨ (1:ℚ)/2 < 4/5)) := by
  refine ⟨rfl, by norm_num [maxHitlInteractionsSetting]⟩

/-- Two remaining steps from generate_response reach evaluate_quality. -/
theorem run_from_generate_two (env : Env) (n : Nat) (s : RAGState) :
    run_from env (n+2) NodeName.generateResponse s =
      evaluate_quality_node env (generate_response_node env s) := rfl

/-- Three remaining steps from web_search reach evaluate_quality. -/
theorem run_from_webSearch_three (env : Env) (n : Nat) (s : RAGState) :
    run_from env (n+3) NodeName.webSearchNode s =
      evaluate_quality_node env
        (generate_response_node env (web_search_node env s)) := rfl

/-- From evaluate_relevance the run always ends by executing
evaluate_quality: the relaxed routing proceeds to generate (documents
present) or to web_search then generate (no documents); the rewrite edge
is never taken. -/
theorem run_from_evaluate (env : Env) (n : Nat) (s : RAGState) :
    ∃ t, run_from env (n+4) NodeName.evaluateRelevance s =
      evaluate_quality_node env t := by
  by_cases hdocs : (evaluate_relevance_node env s).retrievedDocs = []
  · refine ⟨generate_response_node env
      (web_search_node env (evaluate_relevance_node env s)), ?_⟩
    have hroute : route_after_evaluation (evaluate_relevance_node env s) =
        "web_search" := by
      unfold route_after_evaluation
      rw [hdocs]
      simp
    rw [run_from]
    simp only [run_node, next_node, hroute]
    exact run_from_webSearch_three env n _
  · refine ⟨generate_response_node env (evaluate_relevance_node env s), ?_⟩
    have hroute : route_after_evaluation (evaluate_relevance_node env s) =
        "generate" := by
      unfold route_after_evaluation
      rw [if_pos]
      exact List.length_pos.mpr hdocs
    rw [run_from]
    simp only [run_node, next_node, hroute]
    norm_num
    exact run_from_generate_two env (n+1) _

/-- From retrieve the run always ends by executing evaluate_quality. -/
theorem run_from_retrieve (env : Env) (n : Nat) (s : RAGState) :
    ∃ t, run_from env (n+5) NodeName.retrieveDocs s =
      evaluate_quality_node env t := by
  have hstep : run_from env (n+5) NodeName.retrieveDocs s =
      run_from env (n+4) NodeName.evaluateRelevance
        (retrieve_documents_node env s) := rfl
  rw [hstep]
  exact run_from_evaluate env n _

/-- From decompose the run always ends by executing evaluate_quality. -/
theorem run_from_decompose (env : Env) (n : Nat) (s : RAGState) :
    ∃ t, run_from env (n+6) NodeName.decomposeQuery s =
      evaluate_quality_node env t := by
  have hstep : run_from env (n+6) NodeName.decomposeQuery s =
      run_from env (n+5) NodeName.retrieveDocs
        (decompose_query_node env s) := rfl
  rw [hstep]
  exact run_from_retrieve env n _

/-- From process_hitl_response the run always ends by executing
evaluate_quality: the route goes to decompose or retrieve only — the
continuation graph has no clarify-equivalent node and no edge back to
one. -/
theorem run_from_hitl_response (env : Env) (n : Nat) (s : RAGState) :
    ∃ t, run_from env (n+7) NodeName.processHitlResponse s =
      evaluate_quality_node env t := by
  by_cases hcx : route_after_hitl_response
      (process_hitl_response_node env s) = "decompose"
  · have hstep : run_from env (n+7) NodeName.processHitlResponse s =
        run_from env (n+6) NodeName.decomposeQuery
          (process_hitl_response_node env s) := by
      rw [run_from]
      simp only [run_node, next_node, hcx]
      norm_num
    rw [hstep]
    exact run_from_decompose env n _
  · have hstep : run_from env (n+7) NodeName.processHitlResponse s =
        run_from env (n+6) NodeName.retrieveDocs
          (process_hitl_response_node env s) := by
      rw [run_from]
      simp only [run_node, next_node, hcx]
      norm_num
    rw [hstep]
    exact run_from_retrieve env (n+1) _

/-- Because `should_clarify` returns false unconditionally, analysis never
sets clarification_needed. -/
theorem analyze_clarificationNeeded_false (env : Env) (s : RAGState) :
    (analyze_query_node env s).clarificationNeeded = false := rfl

/-- Hence the post-analysis route is never "clarify". -/
theorem route_after_analysis_ne_clarify (env : Env) (s : RAGState) :
    route_after_analysis (analyze_query_node env s) ≠ "clarify" := by
  unfold route_after_analysis
  rw [if_neg]
  · split <;> simp
  · rw [analyze_clarificationNeeded_false]
    simp

/-- From analyze_query a run always ends by executing evaluate_quality
(clarify is unreachable with the disabled HITL trigger). -/
theorem run_from_analyze (env : Env) (n : Nat) (s : RAGState) :
    ∃ t, run_from env (n+8) NodeName.analyzeQuery s =
      evaluate_quality_node env t := by
  have hncl := route_after_analysis_ne_clarify env s
  by_cases hcx : route_after_analysis (analyze_query_node env s) = "decompose"
  · have hstep : run_from env (n+8) NodeName.analyzeQuery s =
        run_from env (n+7) NodeName.decomposeQuery
          (analyze_query_node env s) := by
      rw [run_from]
      simp only [run_node, next_node]
      rw [if_neg hncl, if_pos hcx]
    rw [hstep]
    exact run_from_decompose env (n+1) _
  · have hstep : run_from env (n+8) NodeName.analyzeQuery s =
        run_from env (n+7) NodeName.retrieveDocs
          (analyze_query_node env s) := by
      rw [run_from]
      simp only [run_node, next_node]
      rw [if_neg hncl, if_neg hcx]
    rw [hstep]
    exact run_from_retrieve env (n+2) _

/-- Every main-graph run ends by executing evaluate_quality. -/
theorem run_main_graph_ends_at_quality (env : Env) (s : RAGState) :
    ∃ t, run_main_graph env s = evaluate_quality_node env t :=
  run_from_analyze env 2 s

/-- Every continuation-graph run ends by executing evaluate_quality. -/
theorem run_continuation_graph_ends_at_quality (env : Env) (s : RAGState) :
    ∃ t, run_continuation_graph env s = evaluate_quality_node env t :=
  run_from_hitl_response env 3 s

/-- The quality node stamps its name and sets the disclaimer to the
web-search flag, which it does not modify. -/
theorem evaluate_quality_node_fields (env : Env) (t : RAGState) :
    (evaluate_quality_node env t).currentNode = "evaluate_quality" ∧
    (evaluate_quality_node env t).needsDisclaimer =
      (evaluate_quality_node env t).webSearchTriggered :=
  ⟨rfl, rfl⟩

/-- A concrete oracle environment (constant collaborators; retrieval
raises, web search succeeds with no results). -/
def exampleEnv : Env where
  analyze := fun _ =>
    { refinedQuery := "", complexity := "simple", clarityConfidence := 1,
      isAmbiguous := false, ambiguityType := none, detectedDomains := [] }
  retrieve := fun _ => none
  llmRelevance := fun _ _ => 0
  rewriteAuto := fun q _ _ _ => (q, "generalization")
  generate := fun _ _ _ => { response := "답변", sources := [] }
  qualityConfidence := fun _ _ _ => 1/2
  clarify := fun _ _ _ _ =>
    { clarificationQuestion := "?", options := ["a", "b"] }
  refineHitlQuery := fun q _ r => q ++ " (" ++ r ++ ")"
  webSearch := fun _ _ => some []
  decomposeLLM := fun _ => none

/-- Popping a session id removes it from the registry. -/
theorem lookup_registryErase (r : List (String × RAGState)) (sid : String) :
    (registryErase r sid).lookup sid = none := by
  induction r with
  | nil => rfl
  | cons p r ih =>
      unfold registryErase at ih ⊢
      rw [List.filter_cons]
      by_cases hp : (p.1 == sid) = true
      · rw [if_neg (by simp [hp])]
        exact ih
      · rw [if_pos (by simp [hp])]
        rw [List.lookup_cons]
        have hne : (sid == p.1) = false :=
          beq_eq_false_iff_ne.mpr
            (fun hc => hp (beq_iff_eq.mpr hc.symm))
        rw [hne]
        exact ih

/-- C6: for every final workflow state of either graph, the assembled
response has retrieval_source vector unless web_search_triggered (then
web, or hybrid when retrieved_docs is also non-empty), and
needs_disclaimer equals the quality-evaluation output, which is true
exactly when web search was used — in particular it is forced true
whenever web search was used. -/
theorem response_assembly_spec (env : Env) (s : RAGState)
    (sessionId : String) :
    ((build_response (run_main_graph env s) sessionId).retrievalSource =
      (if (run_main_graph env s).webSearchTriggered then
        (if (run_main_graph env s).retrievedDocs ≠ [] then
          RetrievalSource.hybrid
         else RetrievalSource.web)
       else RetrievalSource.vector)) ∧
    ((build_response (run_main_graph env s) sessionId).needsDisclaimer =
      (run_main_graph env s).webSearchTriggered) ∧
    ((run_main_graph env s).webSearchTriggered = true →
      (build_response (run_main_graph env s) sessionId).needsDisclaimer =
        true) ∧
    ((build_response (run_continuation_graph env s) sessionId).retrievalSource =
      (if (run_continuation_graph env s).webSearchTriggered then
        (if (run_continuation_graph env s).retrievedDocs ≠ [] then
          RetrievalSource.hybrid
         else RetrievalSource.web)
       else RetrievalSource.vector)) ∧
    ((build_response (run_continuation_graph env s) sessionId).needsDisclaimer =
      (run_continuation_graph env s).webSearchTriggered) ∧
    ((run_continuation_graph env s).webSearchTriggered = true →
      (build_response (run_continuation_graph env s) sessionId).needsDisclaimer =
        true) := by
  obtain ⟨t, ht⟩ := run_main_graph_ends_at_quality env s
  obtain ⟨u, hu⟩ := run_continuation_graph_ends_at_quality env s
  refine ⟨rfl, ?_, ?_, rfl, ?_, ?_⟩
  · rw [ht]; rfl
  · intro h; rw [ht] at h ⊢; exact h
  · rw [hu]; rfl
  · intro h; rw [hu] at h ⊢; exact h

/-- Witness for C6: at the concrete environment the fresh run triggers
web search (retrieval raises, zero documents) and the assembled response
carries the disclaimer. -/
theorem response_assembly_spec_witness :
    (run_main_graph exampleEnv
      (create_initial_state "질문" "s1")).webSearchTriggered = true ∧
    (build_response (run_main_graph exampleEnv
      (create_initial_state "질문" "s1")) "s1").needsDisclaimer = true :=
  ⟨rfl, (response_assembly_spec exampleEnv
    (create_initial_state "질문" "s1") "s1").2.2.1 rfl⟩

/-- C9: on a fresh call (no pending entry for the session id) the
analysis never requests clarification, the route is never "clarify", the
run terminates at evaluate_quality — so `process_query` returns a final
RAGResponse, never a ClarificationOutput, and leaves the registry
untouched. -/
theorem process_query_fresh_never_clarifies (env : Env) (orc : Orchestrator)
    (query sessionId : String) (userResponse : Option String)
    (h : orc.pendingSessions.lookup sessionId = none) :
    (analyze_query_node env
      (create_initial_state query sessionId)).clarificationNeeded = false ∧
    route_after_analysis (analyze_query_node env
      (create_initial_state query sessionId)) ≠ "clarify" ∧
    (run_main_graph env
      (create_initial_state query sessionId)).currentNode =
        "evaluate_quality" ∧
    (∃ r : RAGResponse,
      (process_query env orc query sessionId userResponse).1 = Sum.inl r) ∧
    (process_query env orc query sessionId userResponse).2 = orc := by
  obtain ⟨t, ht⟩ := run_main_graph_ends_at_quality env
    (create_initial_state query sessionId)
  have hnode : (run_main_graph env
      (create_initial_state query sessionId)).currentNode =
      "evaluate_quality" := by rw [ht]; rfl
  have hfresh : process_query env orc query sessionId userResponse =
      process_fresh env orc query sessionId := by
    unfold process_query
    rw [h]
    cases userResponse <;> rfl
  have hfr : process_fresh env orc query sessionId =
      (Sum.inl (build_response (run_main_graph env
        (create_initial_state query sessionId)) sessionId), orc) := by
    unfold process_fresh
    rw [if_neg (by rw [hnode]; simp)]
  refine ⟨rfl, route_after_analysis_ne_clarify env _, hnode,
    ⟨build_response (run_main_graph env
      (create_initial_state query sessionId)) sessionId, ?_⟩, ?_⟩
  · rw [hfresh, hfr]
  · rw [hfresh, hfr]

/-- Witness for C9: empty registry, concrete environment and query. -/
theorem process_query_fresh_never_clarifies_witness :
    (Orchestrator.mk []).pendingSessions.lookup "s1" = none ∧
    ((analyze_query_node exampleEnv
      (create_initial_state "질문" "s1")).clarificationNeeded = false ∧
    route_after_analysis (analyze_query_node exampleEnv
      (create_initial_state "질문" "s1")) ≠ "clarify" ∧
    (run_main_graph exampleEnv
      (create_initial_state "질문" "s1")).currentNode =
        "evaluate_quality" ∧
    (∃ r : RAGResponse,
      (process_query exampleEnv ⟨[]⟩ "질문" "s1" none).1 = Sum.inl r) ∧
    (process_query exampleEnv ⟨[]⟩ "질문" "s1" none).2 = ⟨[]⟩) :=
  ⟨rfl, process_query_fresh_never_clarifies exampleEnv ⟨[]⟩ "질문" "s1"
    none rfl⟩

/-- C7 counterexample: no environment, stored state and user response
make the resumed continuation run terminate at a clarify_hitl state — the
continuation graph has no such node and every continuation run ends at
evaluate_quality, so the re-registration branch of
`_continue_with_hitl_response` is dead code. -/
theorem continuation_never_interrupts :
    ¬ ∃ (env : Env) (s : RAGState) (u : String),
        (run_continuation_graph env
          { s with userResponse := some u }).currentNode =
          "clarify_hitl" := by
  rintro ⟨env, s, u, hcontra⟩
  obtain ⟨t, ht⟩ := run_continuation_graph_ends_at_quality env
    { s with userResponse := some u }
  rw [ht] at hcontra
  have : (evaluate_quality_node env t).currentNode = "evaluate_quality" := rfl
  rw [this] at hcontra
  simp at hcontra

/-- C7 (amended): a resumed call always completes: the continuation run
terminates at evaluate_quality, `process_query` returns a final
RAGResponse, and the session is removed from the registry and never
re-registered. -/
theorem resume_always_completes (env : Env) (orc : Orchestrator)
    (query sessionId u : String) (stored : RAGState)
    (hlook : orc.pendingSessions.lookup sessionId = some stored)
    (hu : u ≠ "") :
    (run_continuation_graph env
      { stored with userResponse := some u }).currentNode =
      "evaluate_quality" ∧
    (∃ r : RAGResponse,
      (process_query env orc query sessionId (some u)).1 = Sum.inl r) ∧
    (process_query env orc query sessionId (some u)).2.pendingSessions.lookup
      sessionId = none := by
  obtain ⟨t, ht⟩ := run_continuation_graph_ends_at_quality env
    { stored with userResponse := some u }
  have hnode : (run_continuation_graph env
      { stored with userResponse := some u }).currentNode =
      "evaluate_quality" := by rw [ht]; rfl
  have hcont : process_query env orc query sessionId (some u) =
      continue_with_hitl_response env orc sessionId stored u := by
    unfold process_query
    rw [hlook]
    exact if_neg hu
  have hcc : continue_with_hitl_response env orc sessionId stored u =
      (Sum.inl (build_response (run_continuation_graph env
        { stored with userResponse := some u }) sessionId),
       ⟨registryErase orc.pendingSessions sessionId⟩) := by
    unfold continue_with_hitl_response
    rw [if_neg (by rw [hnode]; simp)]
  refine ⟨hnode,
    ⟨build_response (run_continuation_graph env
      { stored with userResponse := some u }) sessionId, ?_⟩, ?_⟩
  · rw [hcont, hcc]
  · rw [hcont, hcc]
    exact lookup_registryErase orc.pendingSessions sessionId

/-- Witness for C7 (amended): a concrete pending session resumed with a
non-empty answer. -/
theorem resume_always_completes_witness :
    (run_continuation_graph exampleEnv
      { create_initial_state "질문" "s1" with userResponse := some "네" }).currentNode =
      "evaluate_quality" ∧
    (∃ r : RAGResponse,
      (process_query exampleEnv
        ⟨[("s1", create_initial_state "질문" "s1")]⟩ "질문" "s1"
        (some "네")).1 = Sum.inl r) ∧
    (process_query exampleEnv
      ⟨[("s1", create_initial_state "질문" "s1")]⟩ "질문" "s1"
      (some "네")).2.pendingSessions.lookup "s1" = none :=
  resume_always_completes exampleEnv
    ⟨[("s1", create_initial_state "질문" "s1")]⟩ "질문" "s1" "네"
    (create_initial_state "질문" "s1") rfl (by decide)

/-- C8 counterexample: with a user response supplied and an empty
registry, `process_query` answers the request as a fresh query (a final
RAGResponse, registry untouched) instead of rejecting it. -/
theorem process_query_unknown_session_counterexample :
    (∃ r : RAGResponse,
      (process_query exampleEnv ⟨[]⟩ "질문" "s1" (some "네")).1 =
        Sum.inl r) ∧
    (process_query exampleEnv ⟨[]⟩ "질문" "s1" (some "네")).2 =
      ⟨[]⟩ := by
  exact ⟨⟨build_response (run_main_graph exampleEnv
    (create_initial_state "질문" "s1")) "s1", rfl⟩, rfl⟩

/-- C8 (amended): the unknown-session rejection is implemented in the API
route, not in `process`: `chat_clarify` rejects a resume whose session
has no pending entry with the 400 message and never calls the
orchestrator, while `process_query` itself treats such a call as a fresh
query. -/
theorem unknown_session_resume_behavior (env : Env) (orc : Orchestrator)
    (query sessionId userResponse : String)
    (h : orc.pendingSessions.lookup sessionId = none) :
    chat_clarify env orc sessionId userResponse =
      Except.error "세션이 만료되었습니다. 새로운 질문을 입력해 주세요." ∧
    process_query env orc query sessionId (some userResponse) =
      process_fresh env orc query sessionId := by
  constructor
  · unfold chat_clarify
    rw [h]
  · unfold process_query
    rw [h]

/-- Witness for C8 (amended): the concrete empty registry. -/
theorem unknown_session_resume_behavior_witness :
    chat_clarify exampleEnv ⟨[]⟩ "s1" "네" =
      Except.error "세션이 만료되었습니다. 새로운 질문을 입력해 주세요." ∧
    process_query exampleEnv ⟨[]⟩ "질문" "s1" (some "네") =
      process_fresh exampleEnv ⟨[]⟩ "질문" "s1" :=
  unknown_session_resume_behavior exampleEnv ⟨[]⟩ "질문" "s1" "네" rfl

end RagChatbot
